import Mathlib

/-!
Verification development for `scripts/progress_dashboard.py`, a curses-based
progress-event dashboard.  Python strings are modelled as `List Char`
(sequences of Unicode code points), Python `int` as `Int`, Python `None` /
absent dictionary keys as `Option`.  TOML/Python values that can appear as
event fields are modelled by the inductive type `Value` below (floats and
datetimes are omitted; for the properties considered here they behave like
the other always-nonempty scalars).
-/

/-- A TOML/Python value as it can appear in a parsed event entry.
`noneV` models Python `None` (the code's `value is None` branch). -/
inductive Value where
  | str (s : List Char)
  | int (n : Int)
  | bool (b : Bool)
  | list (items : List Value)
  | table (pairs : List (String × Value))
  | noneV

/-- A raw parsed entry: a Python dict, field name to value, in insertion order. -/
def RawEntry := List (String × Value)

/-- Decimal digits of a natural number, as Python `str` renders it. -/
def natRepr (n : Nat) : List Char :=
  if n < 10 then [Char.ofNat (48 + n)]
  else natRepr (n / 10) ++ [Char.ofNat (48 + n % 10)]
decreasing_by
  exact Nat.div_lt_self (by omega) (by omega)

/-- Python `str` of an `int`. -/
def intRepr (n : Int) : List Char :=
  if n < 0 then '-' :: natRepr (-n).toNat else natRepr n.toNat

mutual

/-- Python `repr` of a `Value` (strings quoted; escape sequences inside
strings are not modelled — no claim depends on them). -/
def pyRepr : Value → List Char
  | .str s => Char.ofNat 39 :: (s ++ [Char.ofNat 39])
  | .int n => intRepr n
  | .bool b => if b then "True".data else "False".data
  | .noneV => "None".data
  | .list items => "[".data ++ reprJoin items ++ "]".data
  | .table pairs => Char.ofNat 123 :: (reprJoinPairs pairs ++ [Char.ofNat 125])

/-- Comma-separated `repr`s of list elements, as Python's list `repr`. -/
def reprJoin : List Value → List Char
  | [] => []
  | [v] => pyRepr v
  | v :: vs => pyRepr v ++ ", ".data ++ reprJoin vs

/-- Comma-separated `'key': repr(value)` pairs, as Python's dict `repr`. -/
def reprJoinPairs : List (String × Value) → List Char
  | [] => []
  | [(k, v)] => Char.ofNat 39 :: (k.data ++ (Char.ofNat 39 :: (": ".data ++ pyRepr v)))
  | (k, v) :: ps =>
      (Char.ofNat 39 :: (k.data ++ (Char.ofNat 39 :: (": ".data ++ pyRepr v))))
        ++ ", ".data ++ reprJoinPairs ps

end

/-- Python `str()` of a `Value`: a string renders as itself, everything else
as its `repr`. -/
def pyStr : Value → List Char
  | .str s => s
  | v => pyRepr v

/-- Python truthiness of a `Value` (`bool(v)`): empty strings/lists/dicts,
zero and `None` are falsy. -/
def truthy : Value → Bool
  | .str s => !s.isEmpty
  | .int n => n != 0
  | .bool b => b
  | .list l => !l.isEmpty
  | .table t => !t.isEmpty
  | .noneV => false

/-- Python `dict.get(k)`: the value at the first matching key, if any. -/
def dictGet (item : RawEntry) (k : String) : Option Value :=
  (List.find? (fun kv => kv.1 == k) item).map (fun kv => kv.2)

/-- Second leg of `item.get("task") or item.get("summary") or "(no task)"`. -/
def titleSummary (item : RawEntry) : List Char :=
  match dictGet item "summary" with
  | some v => if truthy v then pyStr v else "(no task)".data
  | none => "(no task)".data

/-- `str(item.get("task") or item.get("summary") or "(no task)")` from
`load_events` (line 33): the title fallback chain. -/
def titleOf (item : RawEntry) : List Char :=
  match dictGet item "task" with
  | some v => if truthy v then pyStr v else titleSummary item
  | none => titleSummary item

/-- `str(item.get(k, ""))`: field as string with empty-string default. -/
def getStrDefault (item : RawEntry) (k : String) : List Char :=
  match dictGet item k with
  | some v => pyStr v
  | none => []

/-- The `Event` dataclass of the source. -/
structure Event where
  ts : List Char
  type : List Char
  task : List Char
  raw : RawEntry

/-- Building one `Event` from one raw entry (loop body of `load_events`). -/
def parseEvent (item : RawEntry) : Event :=
  { ts := getStrDefault item "ts"
  , type := getStrDefault item "type"
  , task := titleOf item
  , raw := item }

/-- Python string `<=`: lexicographic comparison by code point. -/
def lexLe : List Char → List Char → Bool
  | [], _ => true
  | _ :: _, [] => false
  | a :: as, b :: bs => if a < b then true else if a = b then lexLe as bs else false

/-- `load_events` minus the file I/O and TOML decoding (external collaborators):
builds the events from the raw `events` entries and sorts them descending by
timestamp (`events.sort(key=lambda ev: ev.ts, reverse=True)`, a stable
descending sort). -/
def load_events (entries : List RawEntry) : List Event :=
  (entries.map parseEvent).mergeSort (fun a b => lexLe b.ts a.ts)

/-- `clamp(value, low, high) = max(low, min(high, value))`. -/
def clamp (value low high : Int) : Int := max low (min high value)

/-- `clip(text, width)`: truncate `text` to `width` columns, with a trailing
one-character ellipsis when truncation happens and `width > 1`. -/
def clip (text : List Char) (width : Int) : List Char :=
  if width ≤ 0 then []
  else if (text.length : Int) ≤ width then text
  else if width ≤ 1 then text.take width.toNat
  else text.take (width - 1).toNat ++ ['…']

/-- `adjust_scroll(selected, scroll_top, visible_rows, total)`; Python `//`
is floored division, hence `Int.fdiv`. -/
def adjust_scroll (selected scroll_top visible_rows total : Int) : Int :=
  if total ≤ visible_rows then 0
  else
    let middle := Int.fdiv visible_rows 2
    let max_scroll := max 0 (total - visible_rows)
    let s1 :=
      if selected ≥ scroll_top + middle ∧ scroll_top < max_scroll then
        clamp (selected - middle) 0 max_scroll
      else scroll_top
    let s2 :=
      if selected < s1 + middle ∧ s1 > 0 then
        clamp (selected - middle) 0 max_scroll
      else s1
    if selected ≥ total - 1 then max_scroll else s2

/-- Python space characters recognised by `str.split()` (and so by
`textwrap`'s whitespace normalisation). -/
def isPySpace (c : Char) : Bool :=
  c == ' ' || c == '\t' || c == '\n' || c == '\r' || c == Char.ofNat 11 || c == Char.ofNat 12

/-- Helper for `splitWords`: `cur` holds the current word reversed. -/
def splitWordsAux : List Char → List Char → List (List Char)
  | [], cur => if cur.isEmpty then [] else [cur.reverse]
  | c :: cs, cur =>
      if isPySpace c then
        if cur.isEmpty then splitWordsAux cs [] else cur.reverse :: splitWordsAux cs []
      else splitWordsAux cs (c :: cur)

/-- Whitespace-separated words of a string, empty words dropped. -/
def splitWords (s : List Char) : List (List Char) := splitWordsAux s []

/-- Greedy line filling: start a new line when the next word (plus one
separating space) would overflow `width`. -/
def packWords (width : Nat) : List (List Char) → List Char → List (List Char)
  | [], cur => [cur]
  | w :: ws, cur =>
      if cur.length + 1 + w.length ≤ width then packWords width ws (cur ++ ' ' :: w)
      else cur :: packWords width ws w

/-- Model of Python `textwrap.wrap(s, width)` with default options: collapse
whitespace, split into words, greedy first-fit packing.  Faithful to the
library whenever no single word exceeds `width` and no hyphen-splitting
applies (the only wrap facts used at concrete inputs below are of that
shape). -/
def wrapWidth (width : Nat) (s : List Char) : List (List Char) :=
  match splitWords s with
  | [] => []
  | w :: ws => packWords width ws w

/-- `textwrap.wrap(str(item), width=76)` as used by `format_field_value`. -/
def wrap76 (s : List Char) : List (List Char) := wrapWidth 76 s

/-- The bullet chosen for the next appended line in the list branch of
`format_field_value`: `"- " if not lines or lines[-1].startswith("- ") else "  "`. -/
def bulletFor (lines : List (List Char)) : List Char :=
  match lines.getLast? with
  | none => "- ".data
  | some l => if l.take 2 = "- ".data then "- ".data else "  ".data

/-- Inner loop of the list branch: append every wrapped line of one element,
each with its computed bullet. -/
def appendItemLines (lines : List (List Char)) (item : Value) : List (List Char) :=
  (wrap76 (pyStr item)).foldl (fun ls w => ls ++ [bulletFor ls ++ w]) lines

/-- `format_field_value(value)`: one field value rendered as display lines. -/
def format_field_value : Value → List (List Char)
  | .list items =>
      let lines := items.foldl appendItemLines []
      if lines.isEmpty then ["- (empty)".data] else lines
  | .table pairs =>
      let lines := pairs.map (fun kv => kv.1.data ++ ": ".data ++ pyStr kv.2)
      if lines.isEmpty then ["(empty)".data] else lines
  | .noneV => ["(none)".data]
  | v =>
      let w := wrap76 (pyStr v)
      if w.isEmpty then [[]] else w

/-- The mutable state of `main`'s loop that the reload tick and the key
handlers read and write.  Monotonic (`last_load`, `now`) and wall-clock
(`last_loaded_at`, `last_changed_at`) times are both modelled as `Int`. -/
structure DashState where
  selected : Int
  scroll_top : Int
  detail_mode : Bool
  detail_scroll : Int
  last_load : Int
  last_loaded_at : Option Int
  last_changed_at : Option Int
  last_status : String
  events : List Event
  last_mtime : Option Int

/-- Outcome of the `load_events(PROGRESS_PATH)` call on one tick:
success with the decoded raw entries, `FileNotFoundError`, or any other
exception (e.g. a TOML parse error). -/
inductive LoadResult where
  | ok (entries : List RawEntry)
  | fileNotFound
  | otherError

/-- The reload block of `main` (lines 199-221), executed when the refresh
interval has elapsed.  `mtime` is the result of `os.path.getmtime`
(`none` when the file is missing), `res` the outcome of `load_events`,
`now` the monotonic clock, `wallNow` the wall clock (`time.time()`). -/
def reloadTick (st : DashState) (mtime : Option Int) (res : LoadResult)
    (now wallNow : Int) : DashState :=
  let st1 :=
    match res with
    | .ok entries =>
        let evs := load_events entries
        if mtime = st.last_mtime then
          { st with events := evs, last_loaded_at := some wallNow,
                    last_status := "loaded (unchanged)" }
        else
          { st with events := evs, last_loaded_at := some wallNow,
                    last_status := "loaded", last_changed_at := some wallNow }
    | .fileNotFound => { st with events := [], last_status := "not found" }
    | .otherError => { st with events := [], last_status := "load error" }
  { st1 with
    last_mtime := mtime
    selected := clamp st1.selected 0 (max 0 ((st1.events.length : Int) - 1))
    detail_scroll := 0
    last_load := now }

/-- The detail-mode branch of the key dispatch in `main` (lines 245-253).
Key codes: 27 = Escape, 113 = `q`, 259 = `curses.KEY_UP`, 107 = `k`,
258 = `curses.KEY_DOWN`, 106 = `j`. -/
def handle_detail_key (st : DashState) (key : Int) : DashState :=
  if key = 27 ∨ key = 113 then { st with detail_mode := false, detail_scroll := 0 }
  else if key = 259 ∨ key = 107 then { st with detail_scroll := max 0 (st.detail_scroll - 1) }
  else if key = 258 ∨ key = 106 then { st with detail_scroll := st.detail_scroll + 1 }
  else st

/-! Concrete states used by counterexamples and witnesses. -/

/-- The initial loop state of `main` (lines 186-195). -/
def stInit : DashState :=
  { selected := 0, scroll_top := 0, detail_mode := false, detail_scroll := 0
  , last_load := 0, last_loaded_at := none, last_changed_at := none
  , last_status := "waiting", events := [], last_mtime := none }

/-- A sample event. -/
def evA : Event := { ts := "2024".data, type := "note".data, task := "A".data, raw := [] }

/-- A state that holds one previously loaded event. -/
def stWithEvents : DashState :=
  { selected := 0, scroll_top := 0, detail_mode := false, detail_scroll := 0
  , last_load := 0, last_loaded_at := some 1, last_changed_at := some 1
  , last_status := "loaded", events := [evA], last_mtime := some 1 }

/-- Claim C10: `clip` returns at most `max 0 width` characters; it returns
`""` for `width ≤ 0`, the text unchanged when it fits, the first character
alone (no ellipsis) when `width = 1` and the text is longer, and otherwise
the first `width - 1` characters plus an ellipsis, of length exactly
`width`. -/
theorem clip_spec (text : List Char) (width : Int) :
    ((clip text width).length : Int) ≤ max 0 width ∧
    (width ≤ 0 → clip text width = []) ∧
    ((text.length : Int) ≤ width → clip text width = text) ∧
    (width = 1 → (1 : Int) < text.length → clip text width = text.take 1) ∧
    (2 ≤ width → width < (text.length : Int) →
      clip text width = text.take (width - 1).toNat ++ ['…'] ∧
      ((clip text width).length : Int) = width) := by
  unfold clip
  split_ifs with h1 h2 h3
  · refine ⟨by simp, fun _ => rfl, fun h => ?_, fun h => by omega, fun h => by omega⟩
    have : text.length = 0 := by omega
    simp [List.length_eq_zero.mp this]
  · refine ⟨by omega, fun h => by omega, fun _ => rfl, fun hw hl => by omega, fun hw hl => by omega⟩
  · have hw : width = 1 := by omega
    subst hw
    refine ⟨?_, fun h => by omega, fun h => by omega, fun _ _ => rfl, fun h => by omega⟩
    simp [List.length_take]
  · have hw : 2 ≤ width := by omega
    have hl : width < (text.length : Int) := by omega
    have hlen : (text.take (width - 1).toNat ++ ['…']).length = (width - 1).toNat + 1 := by
      simp [List.length_take]
      omega
    refine ⟨by omega, fun h => by omega, fun h => by omega, fun h => by omega,
      fun _ _ => ⟨rfl, by omega⟩⟩

/-- Claim C10 witness: `clip` at concrete inputs. -/
theorem clip_spec_witness :
    clip "hello".data 3 = "he…".data ∧ ((clip "hello".data 3).length : Int) = 3 :=
  ⟨by decide, ((clip_spec "hello".data 3).2.2.2.2 (by decide) (by decide)).2⟩

/-- Claim C7: `adjust_scroll` is idempotent — feeding its result back as the
`scroll_top` argument while keeping the other arguments fixed returns the
same value again, for all integer inputs. -/
theorem adjust_scroll_idem (selected scroll_top visible_rows total : Int) :
    adjust_scroll selected (adjust_scroll selected scroll_top visible_rows total)
        visible_rows total
      = adjust_scroll selected scroll_top visible_rows total := by
  simp only [adjust_scroll, clamp]
  generalize Int.fdiv visible_rows 2 = m
  split_ifs <;> omega

/-- Claim C3 (amended): in detail mode, Escape (27) or `q` (113) leaves
detail mode and resets `detail_scroll` to 0; Up (259) or `k` (107) sets
`detail_scroll` to `max 0 (detail_scroll - 1)` — a lower clamp applied in
the key handler itself; Down (258) or `j` (106) adds 1 with no clamp. -/
theorem detail_key_spec (st : DashState) :
    (handle_detail_key st 27 = { st with detail_mode := false, detail_scroll := 0 }) ∧
    (handle_detail_key st 113 = { st with detail_mode := false, detail_scroll := 0 }) ∧
    ((handle_detail_key st 259).detail_scroll = max 0 (st.detail_scroll - 1)) ∧
    ((handle_detail_key st 107).detail_scroll = max 0 (st.detail_scroll - 1)) ∧
    ((handle_detail_key st 258).detail_scroll = st.detail_scroll + 1) ∧
    ((handle_detail_key st 106).detail_scroll = st.detail_scroll + 1) := by
  refine ⟨?_, ?_, ?_, ?_, ?_, ?_⟩ <;> simp [handle_detail_key]

/-- Claim C3 counterexample: with `detail_scroll = 0`, the Up handler does
not change `detail_scroll` by exactly `-1`; it clamps at 0. -/
theorem detail_up_clamped_counterexample :
    (handle_detail_key stInit 259).detail_scroll ≠ stInit.detail_scroll - 1 ∧
    (handle_detail_key stInit 259).detail_scroll = 0 := by
  constructor <;> simp [handle_detail_key, stInit]

/-- Claim C5: on a reload tick where the source file is absent
(`os.path.getmtime` and `load_events` both raise `FileNotFoundError`), the
event list becomes empty, the status becomes "not found", and
`last_changed_at` keeps exactly its prior value. -/
theorem notfound_tick_spec (st : DashState) (now wallNow : Int) :
    ((reloadTick st none .fileNotFound now wallNow).events = []) ∧
    ((reloadTick st none .fileNotFound now wallNow).last_status = "not found") ∧
    ((reloadTick st none .fileNotFound now wallNow).last_changed_at = st.last_changed_at) := by
  refine ⟨rfl, rfl, rfl⟩

/-- Claim C1 (amended): on a reload tick where the source exists but parsing
fails with any error other than file-not-found, the event list is cleared —
the previously loaded events are discarded, not kept — the status becomes
"load error", and `last_changed_at` is unchanged; the failed parse
contributes no events. -/
theorem parse_error_tick_spec (st : DashState) (mtime : Option Int) (now wallNow : Int) :
    ((reloadTick st mtime .otherError now wallNow).events = []) ∧
    ((reloadTick st mtime .otherError now wallNow).last_status = "load error") ∧
    ((reloadTick st mtime .otherError now wallNow).last_changed_at = st.last_changed_at) := by
  refine ⟨rfl, rfl, rfl⟩

/-- Claim C1 counterexample: a state holding one previously loaded event
loses it on a failed parse — the displayed sequence does not remain in
place. -/
theorem parse_error_discards_prior_counterexample :
    (reloadTick stWithEvents (some 3) .otherError 7 8).events ≠ stWithEvents.events ∧
    (reloadTick stWithEvents (some 3) .otherError 7 8).events = [] := by
  constructor <;> simp [reloadTick, stWithEvents]

/-- Claim C4: with no modification marker recorded before the first tick,
two consecutive successful reloads reading the same marker `m` produce
status "loaded" (with `last_changed_at := wallNow` of that tick) and then
"loaded (unchanged)" (with `last_changed_at` left at the first tick's
value). -/
theorem loader_changed_then_unchanged (st : DashState) (m : Int)
    (e1 e2 : List RawEntry) (n1 w1 n2 w2 : Int) (h : st.last_mtime = none) :
    ((reloadTick st (some m) (.ok e1) n1 w1).last_status = "loaded") ∧
    ((reloadTick st (some m) (.ok e1) n1 w1).last_changed_at = some w1) ∧
    ((reloadTick (reloadTick st (some m) (.ok e1) n1 w1) (some m) (.ok e2) n2 w2).last_status
        = "loaded (unchanged)") ∧
    ((reloadTick (reloadTick st (some m) (.ok e1) n1 w1) (some m) (.ok e2) n2 w2).last_changed_at
        = some w1) := by
  refine ⟨?_, ?_, ?_, ?_⟩ <;> simp [reloadTick, h]

/-- Claim C4 witness: the two-tick scenario from the initial state. -/
theorem loader_changed_then_unchanged_witness :
    ((reloadTick stInit (some 1) (.ok []) 10 11).last_status = "loaded") ∧
    ((reloadTick stInit (some 1) (.ok []) 10 11).last_changed_at = some 11) ∧
    ((reloadTick (reloadTick stInit (some 1) (.ok []) 10 11) (some 1) (.ok []) 20 21).last_status
        = "loaded (unchanged)") ∧
    ((reloadTick (reloadTick stInit (some 1) (.ok []) 10 11) (some 1) (.ok []) 20 21).last_changed_at
        = some 11) :=
  loader_changed_then_unchanged stInit 1 [] [] 10 11 20 21 rfl

/-- Every reload tick ends with `selected = clamp(selected, 0, max(0, len(events)-1))`
and `detail_scroll = 0` (lines 219-220 of the source). -/
theorem reloadTick_post (st : DashState) (mtime : Option Int) (res : LoadResult)
    (now wallNow : Int) :
    (reloadTick st mtime res now wallNow).detail_scroll = 0 ∧
    (reloadTick st mtime res now wallNow).selected
      = clamp st.selected 0
          (max 0 (((reloadTick st mtime res now wallNow).events.length : Int) - 1)) := by
  cases res with
  | ok entries => by_cases hm : mtime = st.last_mtime <;> simp [reloadTick, hm]
  | fileNotFound => simp [reloadTick]
  | otherError => simp [reloadTick]

/-- Claim C8: after any reload tick, `selected` lies in `[0, len(events)-1]`
(and is 0 when the list is empty) and `detail_scroll` is reset to 0, so
indexing `events[selected]` afterwards is in range whenever the list is
non-empty. -/
theorem reload_clamps_selection (st : DashState) (mtime : Option Int) (res : LoadResult)
    (now wallNow : Int) :
    ((reloadTick st mtime res now wallNow).detail_scroll = 0) ∧
    (0 ≤ (reloadTick st mtime res now wallNow).selected) ∧
    ((reloadTick st mtime res now wallNow).selected
        ≤ max 0 (((reloadTick st mtime res now wallNow).events.length : Int) - 1)) ∧
    ((reloadTick st mtime res now wallNow).events = []
        → (reloadTick st mtime res now wallNow).selected = 0) ∧
    ((reloadTick st mtime res now wallNow).events ≠ []
        → (reloadTick st mtime res now wallNow).selected
            < ((reloadTick st mtime res now wallNow).events.length : Int)) := by
  obtain ⟨h1, h2⟩ := reloadTick_post st mtime res now wallNow
  refine ⟨h1, ?_, ?_, ?_, ?_⟩
  · rw [h2]; unfold clamp; omega
  · rw [h2]; unfold clamp; omega
  · intro he; rw [h2, he]; unfold clamp; simp
  · intro he
    have hpos : 0 < (reloadTick st mtime res now wallNow).events.length :=
      List.length_pos.mpr he
    rw [h2]; unfold clamp; omega

/-- Claim C8 witness: a reload that shrinks the list below the prior
selection clamps the selection and resets the detail scroll. -/
theorem reload_clamps_selection_witness :
    ((reloadTick stWithEvents none .fileNotFound 9 9).detail_scroll = 0) ∧
    ((reloadTick stWithEvents none .fileNotFound 9 9).events = []
        → (reloadTick stWithEvents none .fileNotFound 9 9).selected = 0) :=
  ⟨(reload_clamps_selection stWithEvents none .fileNotFound 9 9).1,
   (reload_clamps_selection stWithEvents none .fileNotFound 9 9).2.2.2.1⟩

/-- `lexLe` is total. -/
theorem lexLe_total (x : List Char) : ∀ y, (lexLe x y || lexLe y x) = true := by
  induction x with
  | nil => intro y; cases y <;> simp [lexLe]
  | cons a as ih =>
    intro y
    cases y with
    | nil => simp [lexLe]
    | cons b bs =>
      simp only [lexLe]
      rcases lt_trichotomy a b with h | h | h
      · simp [h]
      · subst h
        simp only [lt_irrefl, if_false, if_pos rfl]
        exact ih bs
      · simp [h, lt_asymm h, (ne_of_gt h)]

/-- `lexLe` is transitive. -/
theorem lexLe_trans : ∀ (x y z : List Char),
    lexLe x y = true → lexLe y z = true → lexLe x z = true := by
  intro x
  induction x with
  | nil => intro y z _ _; simp [lexLe]
  | cons a as ih =>
    intro y z hxy hyz
    cases y with
    | nil => simp [lexLe] at hxy
    | cons b bs =>
      cases z with
      | nil => simp [lexLe] at hyz
      | cons c cs =>
        simp only [lexLe] at hxy hyz ⊢
        by_cases hab : a < b
        · by_cases hbc : b < c
          · simp [lt_trans hab hbc]
          · rw [if_neg hbc] at hyz
            by_cases hbc2 : b = c
            · subst hbc2; simp [hab]
            · rw [if_neg hbc2] at hyz; exact absurd hyz (by simp)
        · rw [if_neg hab] at hxy
          by_cases hab2 : a = b
          · subst hab2
            rw [if_pos rfl] at hxy
            by_cases hac : a < c
            · simp [hac]
            · rw [if_neg hac] at hyz ⊢
              by_cases hac2 : a = c
              · rw [if_pos hac2] at hyz ⊢
                exact ih bs cs hxy hyz
              · rw [if_neg hac2] at hyz; exact absurd hyz (by simp)
          · rw [if_neg hab2] at hxy; exact absurd hxy (by simp)

/-- Claim C6: for every list of raw entries, the events produced by
`load_events` (parse, then sort descending by timestamp) satisfy
`ts[i] >= ts[i+1]` — here `lexLe b.ts a.ts` says "`a.ts` is
lexicographically at least `b.ts`" — for every adjacent pair. -/
theorem load_events_sorted (entries : List RawEntry) :
    List.Chain' (fun a b => lexLe b.ts a.ts = true) (load_events entries) := by
  have h := @List.sorted_mergeSort Event
    (fun a b => lexLe b.ts a.ts)
    (fun a b c hab hbc => lexLe_trans c.ts b.ts a.ts hbc hab)
    (fun a b => lexLe_total b.ts a.ts)
    (entries.map parseEvent)
  exact List.Pairwise.chain' h

/-- `natRepr` always produces at least one digit. -/
theorem natRepr_ne_nil (n : Nat) : natRepr n ≠ [] := by
  rw [natRepr]
  split <;> simp

/-- `intRepr` is never empty. -/
theorem intRepr_ne_nil (n : Int) : intRepr n ≠ [] := by
  unfold intRepr
  split
  · simp
  · exact natRepr_ne_nil _

/-- A Python `repr` is never the empty string. -/
theorem pyRepr_ne_nil (v : Value) : pyRepr v ≠ [] := by
  cases v with
  | str s => simp [pyRepr]
  | int n => simpa [pyRepr] using intRepr_ne_nil n
  | bool b => cases b <;> simp [pyRepr]
  | noneV => simp [pyRepr]
  | list items => simp [pyRepr]
  | table pairs => simp [pyRepr]

/-- `str()` of a truthy value is never the empty string. -/
theorem pyStr_truthy_ne_nil {v : Value} (h : truthy v = true) : pyStr v ≠ [] := by
  cases v with
  | str s =>
      simp only [truthy, Bool.not_eq_true', List.isEmpty_eq_false_iff_exists_mem] at h
      simp only [pyStr]
      simp [truthy, List.isEmpty_iff] at *
      intro hc
      simp [hc] at h
  | int n => exact pyRepr_ne_nil _
  | bool b => exact pyRepr_ne_nil _
  | list items => exact pyRepr_ne_nil _
  | table pairs => exact pyRepr_ne_nil _
  | noneV => exact pyRepr_ne_nil _

/-- The summary leg of the fallback chain is never empty. -/
theorem titleSummary_ne_nil (d : RawEntry) : titleSummary d ≠ [] := by
  unfold titleSummary
  cases dictGet d "summary" with
  | none => simp
  | some v =>
      by_cases h : truthy v
      · simpa [h] using pyStr_truthy_ne_nil h
      · simp [h]

/-- The derived title is never empty. -/
theorem titleOf_ne_nil (d : RawEntry) : titleOf d ≠ [] := by
  unfold titleOf
  cases dictGet d "task" with
  | none => exact titleSummary_ne_nil d
  | some v =>
      by_cases h : truthy v
      · simpa [h] using pyStr_truthy_ne_nil h
      · simpa [h] using titleSummary_ne_nil d

/-- The title fallback chain as the spec words it: the task field when
present and non-empty, else the summary field when present and non-empty,
else the fixed placeholder.  Stated over optional string fields, for
comparison with the code's `titleOf`. -/
def titleChainFromSummary (summaryF : Option (List Char)) : List Char :=
  match summaryF with
  | some t => if t.isEmpty then "(no task)".data else t
  | none => "(no task)".data

/-- Spec-side fallback chain, first leg. -/
def titleChainSpec (taskF summaryF : Option (List Char)) : List Char :=
  match taskF with
  | some s => if s.isEmpty then titleChainFromSummary summaryF else s
  | none => titleChainFromSummary summaryF

/-- Claim C9: every raw entry's derived title (the `task` field of the
built `Event`) is non-empty, and on entries whose `task`/`summary` fields
are strings (or absent) it equals the spec's fallback chain. -/
theorem title_fallback_spec :
    (∀ d : RawEntry, (parseEvent d).task = titleOf d ∧ titleOf d ≠ []) ∧
    (∀ (d : RawEntry) (tf sf : Option (List Char)),
      dictGet d "task" = Option.map Value.str tf →
      dictGet d "summary" = Option.map Value.str sf →
      titleOf d = titleChainSpec tf sf) := by
  constructor
  · intro d; exact ⟨rfl, titleOf_ne_nil d⟩
  · intro d tf sf ht hs
    unfold titleOf titleSummary titleChainSpec titleChainFromSummary
    rw [ht, hs]
    cases tf with
    | none =>
        cases sf with
        | none => rfl
        | some t =>
            simp only [Option.map_some', Option.map_none', truthy, pyStr]
            by_cases h : t.isEmpty <;> simp [h]
    | some s =>
        cases sf with
        | none =>
            simp only [Option.map_some', Option.map_none', truthy, pyStr]
            by_cases h : s.isEmpty <;> simp [h]
        | some t =>
            simp only [Option.map_some', truthy, pyStr]
            by_cases h1 : s.isEmpty <;> by_cases h2 : t.isEmpty <;> simp [h1, h2]

/-- Claim C9 witness: an entry with no `task` field and a non-empty
`summary` takes the summary as its title. -/
theorem title_fallback_spec_witness :
    titleOf [("summary", Value.str ['S'])] = titleChainSpec none (some ['S']) ∧
    titleOf [("summary", Value.str ['S'])] ≠ [] :=
  ⟨title_fallback_spec.2 _ none (some ['S']) rfl rfl,
   (title_fallback_spec.1 _).2⟩

/-- When every accumulated line already starts with `"- "`, the bullet
chosen for the next line is `"- "` again (the two-space branch needs a
previous line that does not start with `"- "`). -/
theorem bulletFor_allDash {lines : List (List Char)}
    (h : ∀ l ∈ lines, l.take 2 = ['-', ' ']) : bulletFor lines = ['-', ' '] := by
  cases hL : lines.getLast? with
  | none => simp [bulletFor, hL]
  | some l =>
      have hl : l ∈ lines := List.mem_of_getLast?_eq_some hL
      simp [bulletFor, hL, h l hl]

/-- Unrolling the inner loop of the list branch: starting from lines that
all carry the `"- "` bullet, every wrapped segment is appended with the
`"- "` bullet as well. -/
theorem foldl_bullets (ws : List (List Char)) :
    ∀ lines, (∀ l ∈ lines, l.take 2 = ['-', ' ']) →
      ws.foldl (fun ls w => ls ++ [bulletFor ls ++ w]) lines
        = lines ++ ws.map (fun w => '-' :: ' ' :: w) := by
  induction ws with
  | nil => intro lines _; simp
  | cons w ws ih =>
      intro lines h
      have hb := bulletFor_allDash h
      simp only [List.foldl_cons, hb, List.map_cons]
      have h2 : ∀ l ∈ lines ++ [['-', ' '] ++ w], l.take 2 = ['-', ' '] := by
        intro l hl
        rcases List.mem_append.mp hl with h1 | h1
        · exact h l h1
        · simp only [List.mem_singleton] at h1
          subst h1; rfl
      rw [ih _ h2]
      simp

/-- Unrolling the outer loop over elements. -/
theorem foldl_items (items : List Value) :
    ∀ lines, (∀ l ∈ lines, l.take 2 = ['-', ' ']) →
      items.foldl appendItemLines lines
        = lines ++ items.flatMap
            (fun it => (wrap76 (pyStr it)).map (fun w => '-' :: ' ' :: w)) := by
  induction items with
  | nil => intro lines _; simp
  | cons it its ih =>
      intro lines h
      simp only [List.foldl_cons, appendItemLines]
      rw [foldl_bullets _ lines h]
      have h2 : ∀ l ∈ lines ++ (wrap76 (pyStr it)).map (fun w => '-' :: ' ' :: w),
          l.take 2 = ['-', ' '] := by
        intro l hl
        rcases List.mem_append.mp hl with h1 | h1
        · exact h l h1
        · rcases List.mem_map.mp h1 with ⟨w, _, hw⟩
          subst hw; rfl
      rw [ih _ h2]
      simp [List.flatMap_cons, List.append_assoc]

/-- Claim C2 (amended): in the list branch of `format_field_value`, every
line produced from every element — continuation lines of a multi-line
element included — carries the `"- "` bullet: the first line gets `"- "`
because the accumulator is empty, and every later line follows a line that
itself starts with `"- "`, so the two-space continuation prefix is
unreachable.  A list none of whose elements yields any wrapped line (in
particular an empty list) renders as the single line `"- (empty)"`. -/
theorem format_list_spec (items : List Value) :
    format_field_value (.list items)
      = (if (items.flatMap fun it => (wrap76 (pyStr it)).map fun w => '-' :: ' ' :: w) = []
         then ["- (empty)".data]
         else items.flatMap fun it => (wrap76 (pyStr it)).map fun w => '-' :: ' ' :: w) ∧
    format_field_value (.list []) = ["- (empty)".data] ∧
    (∀ l ∈ format_field_value (.list items), l.take 2 = ['-', ' ']) := by
  have hmain : format_field_value (.list items)
      = (if (items.flatMap fun it => (wrap76 (pyStr it)).map fun w => '-' :: ' ' :: w) = []
         then ["- (empty)".data]
         else items.flatMap fun it => (wrap76 (pyStr it)).map fun w => '-' :: ' ' :: w) := by
    simp only [format_field_value]
    rw [foldl_items items [] (by intro l hl; simp at hl)]
    simp [List.isEmpty_iff]
  refine ⟨hmain, by decide, ?_⟩
  intro l hl
  rw [hmain] at hl
  by_cases he : (items.flatMap fun it => (wrap76 (pyStr it)).map fun w => '-' :: ' ' :: w) = []
  · rw [if_pos he] at hl
    simp only [List.mem_singleton] at hl
    subst hl; decide
  · rw [if_neg he] at hl
    rcases List.mem_flatMap.mp hl with ⟨it, _, hin⟩
    rcases List.mem_map.mp hin with ⟨w, _, hw⟩
    subst hw; rfl

/-- Claim C2 witness: a two-element list of short strings gets one `"- "`
bullet line per element. -/
theorem format_list_spec_witness :
    format_field_value (.list [.str "hello".data, .str "world".data])
      = ["- hello".data, "- world".data] ∧
    (∀ l ∈ format_field_value (.list [.str "hello".data, .str "world".data]),
      l.take 2 = ['-', ' ']) :=
  ⟨by decide, (format_list_spec [.str "hello".data, .str "world".data]).2.2⟩

/-- Claim C2 counterexample: one element of two 40-character words wraps at
width 76 into two lines, and the second (continuation) line is prefixed
`"- "` — not the two spaces the claim requires. -/
theorem format_list_counterexample :
    format_field_value
        (.list [.str (List.replicate 40 'a' ++ ' ' :: List.replicate 40 'b')])
      ≠ ['-' :: ' ' :: List.replicate 40 'a', ' ' :: ' ' :: List.replicate 40 'b'] ∧
    format_field_value
        (.list [.str (List.replicate 40 'a' ++ ' ' :: List.replicate 40 'b')])
      = ['-' :: ' ' :: List.replicate 40 'a', '-' :: ' ' :: List.replicate 40 'b'] := by
  constructor <;> decide
